import Mathlib

/-!
Verification of the symbol-line engine of `exp/cmd/gosym/gosym.go`.

The development shallowly embeds the parts of the program the claims are
about: the kind-mask parser (`parseKindMask`), the symbol-line record with
its serializer (`symLine.String`, here `symLineString`) and its parser
(`parseSymLine` driven by the regular expression `linePat`), the printing
filter (`visitPrint`), and the AST traversal (`visitExprs`).  External
collaborators (the go parser, type checker, `build.Import`, the pretty
printer) are modelled as abstract data carried on the nodes or as abstract
environment functions, exactly at the boundaries at which the source
consumes them.
-/

/-- ObjKind embeds `ast.ObjKind` with its iota values
(`Bad, Pkg, Con, Typ, Var, Fun, Lbl`); `fun` is a Lean keyword, so the
`Fun` constructor is named `func`. -/
inductive ObjKind where
  | bad
  | pkg
  | con
  | typ
  | var
  | func
  | lbl
deriving DecidableEq, Repr

/-- The iota value of an `ast.ObjKind`, used by `parseKindMask` and
`visitPrint` as the shift amount of the kind's mask bit. -/
def ObjKind.toNat : ObjKind → Nat
  | .bad => 0
  | .pkg => 1
  | .con => 2
  | .typ => 3
  | .var => 4
  | .func => 5
  | .lbl => 6

/-- The `objKinds` map (gosym.go:24-29), as a lookup function: the four
kind tokens, case-sensitively, and nothing else. -/
def objKinds (s : String) : Option ObjKind :=
  if s = "const" then some .con
  else if s = "type" then some .typ
  else if s = "var" then some .var
  else if s = "func" then some .func
  else none

/-- `ast.ObjKind.String`: the `objKindStrings` table of the go `ast`
package, used when a `symLine` is printed with `%s`. -/
def kindString : ObjKind → String
  | .bad => "bad"
  | .pkg => "package"
  | .con => "const"
  | .typ => "type"
  | .var => "var"
  | .func => "func"
  | .lbl => "label"

deriving instance DecidableEq for Except

/-- The error values the embedded functions can produce.  The source
returns `error` values built with `fmt.Errorf`; each constructor carries
the format arguments of the corresponding call.  `panicked` stands for a
Go `panic` (the `atoi` helper panics on a bad number). -/
inductive GosymError where
  | unknownKind (tok : String)
  | invalidLine (line : String)
  | invalidKind (tok : String)
  | panicked (msg : String)
deriving DecidableEq, Repr

/-- `strings.Split` for a one-character separator, on the character list
of the string: `strings.Split("", sep) = [""]`, and the separator is not
part of any piece. -/
def splitChar (sep : Char) : List Char → List (List Char)
  | [] => [[]]
  | c :: cs =>
    match splitChar sep cs with
    | [] => [[]]
    | t :: ts => if c = sep then [] :: t :: ts else (c :: t) :: ts

/-- The loop of `parseKindMask` (gosym.go:99-106): each token must be in
`objKinds`, its kind bit is or-ed into the mask; an unknown token stops
the loop with the `unknown type kind` error. -/
def parseKindLoop : List (List Char) → Nat → Except GosymError Nat
  | [], mask => .ok mask
  | k :: ks, mask =>
    match objKinds (String.mk k) with
    | some c => parseKindLoop ks (mask ||| (1 <<< c.toNat))
    | none => .error (.unknownKind (String.mk k))

/-- `parseKindMask` (gosym.go:96-108): split the comma-separated list and
fold the kind bits, starting from the zero mask. -/
def parseKindMask (kinds : String) : Except GosymError Nat :=
  parseKindLoop (splitChar ',' kinds.data) 0

/-- `token.Position` as used by the program: file name, 1-based line and
column.  The `Offset` field is always zero here (see the comment on
`symLine.pos` in the source) and is omitted. -/
structure Position where
  filename : String
  line : Nat
  column : Nat
deriving DecidableEq, Repr

/-- `token.Position.String`: `file:line:col`, dropping the column when it
is zero, dropping line and column for an invalid (line 0) position, and
rendering a completely empty position as `-`. -/
def posString (p : Position) : String :=
  let s := p.filename
  let s :=
    if p.line > 0 then
      (if s ≠ "" then s ++ ":" else s) ++ toString p.line ++
        (if p.column ≠ 0 then ":" ++ toString p.column else "")
    else s
  if s = "" then "-" else s

/-- The `symLine` record (gosym.go:247-256).  The Go field `local` is a
Lean keyword and is named `isLocal` here. -/
structure symLine where
  pos : Position
  exprPkg : String
  referPkg : String
  isLocal : Bool
  kind : ObjKind
  definition : Bool
  expr : String
  exprType : String
deriving DecidableEq, Repr

/-- `symLine.String` (gosym.go:292-306):
`fmt.Sprintf("%v: %s %s %s %s%s%s%s", l.pos, l.exprPkg, l.referPkg,
l.expr, local, l.kind, def, exprType)` where `local` is `"local"` or
empty, `def` is `"+"` or empty and `exprType` carries its own leading
space when nonempty. -/
def symLineString (l : symLine) : String :=
  let localStr := if l.isLocal then "local" else ""
  let defStr := if l.definition then "+" else ""
  let exprTypeStr := if l.exprType.length > 0 then " " ++ l.exprType else ""
  posString l.pos ++ ": " ++ l.exprPkg ++ " " ++ l.referPkg ++ " " ++
    l.expr ++ " " ++ localStr ++ kindString l.kind ++ defStr ++ exprTypeStr

/-- Modelled from the spec: the serialization grammar the spec claims,
`<file>:<line>:<col>: <ownerPkg> <referPkg> [local]<expr><kind>[+][ <type>]`,
with the `local` marker before the expression and the kind token
immediately following the expression with no separating space.  It exists
only to be compared with `symLineString`, which embeds the source. -/
def specGrammarRender (l : symLine) : String :=
  posString l.pos ++ ": " ++ l.exprPkg ++ " " ++ l.referPkg ++ " " ++
    (if l.isLocal then "local" else "") ++ l.expr ++ kindString l.kind ++
    (if l.definition then "+" else "") ++
    (if l.exprType.length > 0 then " " ++ l.exprType else "")

/-- The serialization grammar the source actually implements:
`<file>:<line>:<col>: <ownerPkg> <referPkg> <expr> [local]<kind>[+][ <type>]`;
the expression is followed by exactly one space, the kind token
immediately follows the optional `local` marker with no space, and the
optional type text is preceded by exactly one space. -/
def codeGrammarRender (l : symLine) : String :=
  posString l.pos ++ ": " ++ l.exprPkg ++ " " ++ l.referPkg ++ " " ++
    l.expr ++ " " ++
    (if l.isLocal then "local" else "") ++ kindString l.kind ++
    (if l.definition then "+" else "") ++
    (if l.exprType.length > 0 then " " ++ l.exprType else "")

/-- Everything `symLineString` prints before the optional `+` marker. -/
def symLineStem (l : symLine) : String :=
  posString l.pos ++ ": " ++ l.exprPkg ++ " " ++ l.referPkg ++ " " ++
    l.expr ++ " " ++ (if l.isLocal then "local" else "") ++ kindString l.kind

/-- Everything `symLineString` prints after the optional `+` marker. -/
def symLineTypeSuffix (l : symLine) : String :=
  if l.exprType.length > 0 then " " ++ l.exprType else ""

/-- The character class `\s` of the go `regexp` package:
`[\t\n\f\r ]`. -/
def isSpaceGo (c : Char) : Bool :=
  c = ' ' || c = '\t' || c = '\n' || c = '\x0c' || c = '\r'

/-- The character class `\d`: an ASCII decimal digit. -/
def isDigitGo (c : Char) : Bool :=
  '0' ≤ c && c ≤ '9'

/-- The submatches of `linePat` (gosym.go:258):
`^([^:]+):(\d+):(\d+):\s+([^ ]+)\s+([^\s]+)\s+(local)?([^\s+]+)(\+)?(\s+([^\s].*))?$`.
`localFlag` records whether group 6 matched (so `m[6] == "local"`),
`plusFlag` whether group 8 matched, and `typ` carries group 10 when
group 9 matched (`m[9]` is nonempty exactly when the optional trailing
group matched, and then `m[10]` is its non-whitespace-led tail). -/
structure LineMatch where
  file : List Char
  lineDigits : List Char
  colDigits : List Char
  exprPkg : List Char
  referPkg : List Char
  localFlag : Bool
  kindTok : List Char
  plusFlag : Bool
  typ : Option (List Char)
deriving DecidableEq, Repr

/-- The suffix pattern `(\s+([^\s].*))?$` of `linePat`.  Go's `.` does not
match a newline, and the empty string is the group-absent success case.
When the remainder is nonempty the group must match all of it: the `\s+`
part must be the maximal whitespace prefix (any shorter split puts a
whitespace character where `[^\s]` is required), the next character is
then non-whitespace by maximality, and `.*` reaches the end of the text
exactly when no newline follows. -/
def matchEnd (rem : List Char) : Option (Option (List Char)) :=
  match rem with
  | [] => some none
  | _ =>
    let w := rem.takeWhile isSpaceGo
    if w.isEmpty then none
    else
      match rem.drop w.length with
      | [] => none
      | c :: cs => if cs.contains '\n' then none else some (some (c :: cs))

/-- The pattern `([^\s+]+)(\+)?` followed by `matchEnd`.  Group 7 must be
the maximal run of non-whitespace non-`+` characters: shortening it puts
a `[^\s+]` character where `\+`, `\s` or the end of the text is required,
so no backtracking into group 7 can succeed.  The optional `(\+)?` is
greedy: the branch consuming a `+` is preferred, and the non-consuming
branch is tried on failure, as in leftmost-first regexp matching. -/
def matchKindPlus (rem : List Char) : Option (List Char × Bool × Option (List Char)) :=
  let g7 := rem.takeWhile (fun c => !isSpaceGo c && c ≠ '+')
  if g7.isEmpty then none
  else
    match rem.drop g7.length with
    | '+' :: r' =>
      (match matchEnd r' with
       | some t => some (g7, true, t)
       | none =>
         match matchEnd ('+' :: r') with
         | some t => some (g7, false, t)
         | none => none)
    | r =>
      match matchEnd r with
      | some t => some (g7, false, t)
      | none => none

/-- The optional group `(local)?` followed by `matchKindPlus`; greedy, so
the branch consuming `local` is preferred and the empty branch is tried
when it fails (for example on `local+` or on `local` alone). -/
def matchLocalKind (rem : List Char) :
    Option (Bool × List Char × Bool × Option (List Char)) :=
  let withLocal :=
    if rem.take 5 = ['l', 'o', 'c', 'a', 'l'] then
      (matchKindPlus (rem.drop 5)).map (fun x => (true, x))
    else none
  withLocal <|> (matchKindPlus rem).map (fun x => (false, x))

/-- The pattern `([^\s]+)\s+` followed by `matchLocalKind`.  Group 5 must
be the maximal non-whitespace run (shortening it puts a non-whitespace
character where `\s` is required) and the following `\s+` must be the
maximal whitespace run (shortening it puts a whitespace character where
`local` or `[^\s+]` is required), so this stage is deterministic. -/
def matchReferPkg (rem : List Char) :
    Option (List Char × Bool × List Char × Bool × Option (List Char)) :=
  let g5 := rem.takeWhile (fun c => !isSpaceGo c)
  if g5.isEmpty then none
  else
    let r := rem.drop g5.length
    let w := r.takeWhile isSpaceGo
    if w.isEmpty then none
    else (matchLocalKind (r.drop w.length)).map (fun x => (g5, x))

/-- The pattern `([^ ]+)\s+` followed by `matchReferPkg`, backtracking on
the length of group 4.  `[^ ]` excludes only the space character, so
group 4 can swallow tabs and newlines that the following `\s+` needs;
greedy matching tries the longest length first and shortens on failure.
The `\s+` after group 4 is deterministic (shortening it puts a whitespace
character where `[^\s]` is required). -/
def matchExprPkgLoop (rem : List Char) : Nat →
    Option (List Char × List Char × Bool × List Char × Bool × Option (List Char))
  | 0 => none
  | k + 1 =>
    let g4 := rem.take (k + 1)
    let r := rem.drop (k + 1)
    let w := r.takeWhile isSpaceGo
    let attempt :=
      if w.isEmpty then none
      else (matchReferPkg (r.drop w.length)).map (fun x => (g4, x))
    attempt <|> matchExprPkgLoop rem k

/-- Entry to the group-4 stage: lengths from the maximal `[^ ]` run
downwards. -/
def matchExprPkg (rem : List Char) :
    Option (List Char × List Char × Bool × List Char × Bool × Option (List Char)) :=
  matchExprPkgLoop rem (rem.takeWhile (fun c => c ≠ ' ')).length

/-- The `\s+` after the position prefix, backtracking on its length:
group 4 (`[^ ]+`) can itself match non-space whitespace such as tabs, so
a shorter whitespace run can succeed where the maximal one fails. -/
def matchWsLoop (rem : List Char) : Nat →
    Option (List Char × List Char × Bool × List Char × Bool × Option (List Char))
  | 0 => none
  | k + 1 => matchExprPkg (rem.drop (k + 1)) <|> matchWsLoop rem k

/-- Entry to the leading-whitespace stage: lengths from the maximal
whitespace run downwards. -/
def matchWs (rem : List Char) :
    Option (List Char × List Char × Bool × List Char × Bool × Option (List Char)) :=
  matchWsLoop rem (rem.takeWhile isSpaceGo).length

/-- `linePat.FindStringSubmatch` (gosym.go:258,269) on the characters of
the line.  The anchored prefix `([^:]+):(\d+):(\d+):` is deterministic:
each of the three runs is maximal over a class that excludes the
following literal, so no shorter split can make the literal match. -/
def linePatMatch (s : List Char) : Option LineMatch :=
  let g1 := s.takeWhile (fun c => c ≠ ':')
  if g1.isEmpty then none
  else
    match s.drop g1.length with
    | ':' :: r1 =>
      let g2 := r1.takeWhile isDigitGo
      if g2.isEmpty then none
      else
        match r1.drop g2.length with
        | ':' :: r2 =>
          let g3 := r2.takeWhile isDigitGo
          if g3.isEmpty then none
          else
            match r2.drop g3.length with
            | ':' :: r3 =>
              (matchWs r3).map (fun (g4, g5, loc, g7, plus, typ) =>
                ⟨g1, g2, g3, g4, g5, loc, g7, plus, typ⟩)
            | _ => none
        | _ => none
    | _ => none

/-- Decimal value of a digit run. -/
def digitsVal (s : List Char) : Nat :=
  s.foldl (fun a c => a * 10 + (c.toNat - 48)) 0

/-- `strconv.Atoi` on the digit runs the matcher produces: the value must
fit a 64-bit `int`; outside that range `Atoi` errors, which makes the
`atoi` helper (gosym.go:260-266) panic with `bad number`.  `none` models
that panic. -/
def atoi (s : List Char) : Option Nat :=
  if s ≠ [] && s.all isDigitGo && digitsVal s ≤ 9223372036854775807 then
    some (digitsVal s)
  else none

/-- `parseSymLine` (gosym.go:268-290).  On no match: the `invalid line`
error carrying the raw text.  On a match: the numeric groups go through
`atoi` (whose panic is the `panicked` error), group 7 is looked up in
`objKinds` (an unknown token is the `invalid kind` error), `local` and
`definition` record whether groups 6 and 8 matched, and the type text is
taken from group 10 when group 9 matched.  The `expr` field is never
assigned and keeps its zero value. -/
def parseSymLine (line : String) : Except GosymError symLine :=
  match linePatMatch line.data with
  | none => .error (.invalidLine line)
  | some m =>
    match atoi m.lineDigits with
    | none => .error (.panicked "bad number")
    | some ln =>
      match atoi m.colDigits with
      | none => .error (.panicked "bad number")
      | some col =>
        match objKinds (String.mk m.kindTok) with
        | none => .error (.invalidKind (String.mk m.kindTok))
        | some k =>
          .ok { pos := { filename := String.mk m.file, line := ln, column := col }
                exprPkg := String.mk m.exprPkg
                referPkg := String.mk m.referPkg
                isLocal := m.localFlag
                kind := k
                definition := m.plusFlag
                expr := ""
                exprType :=
                  match m.typ with
                  | some t => String.mk t
                  | none => "" }

/-- The type nodes the program pretty-prints.  `printer.Fprint` is an
external collaborator; `named s` stands for any non-pointer type node
whose rendering is `s`, and `star t` for the pointer node `*t`, which
renders as `*` followed by the rendering of `t`. -/
inductive TypeNode where
  | star (t : TypeNode)
  | named (s : String)
deriving DecidableEq, Repr

/-- The rendering produced by the `pretty` wrapper (gosym.go:379-387) on
a type node. -/
def prettyT : TypeNode → String
  | .star t => "*" ++ prettyT t
  | .named s => s

/-- `pretty` on a possibly-nil node: the printer produces no text for a
nil node. -/
def prettyTO : Option TypeNode → String
  | some t => prettyT t
  | none => ""

/-- `depointer` (gosym.go:356-361): strip exactly one `StarExpr` level,
leave every other node unchanged. -/
def depointer : TypeNode → TypeNode
  | .star t => t
  | .named s => .named s

/-- `depointer` lifted to the possibly-nil node it receives from
`xt.Node`. -/
def depointerO : Option TypeNode → Option TypeNode
  | some t => some (depointer t)
  | none => none

/-- The expression of a `symInfo`, with the outcome of the boundary call
`types.ExprType(e.X, …)` carried on the selector: `xKind` is `xt.Kind`
(`ast.Pkg` when the base names a package) and `xNode` is `xt.Node`,
`none` when the base's type is unknown. -/
inductive ExprM where
  | ident (name : String)
  | selector (xKind : ObjKind) (xNode : Option TypeNode) (selName : String)
deriving DecidableEq, Repr

/-- True when printing the expression needs no base type or the base type
is known: the only excluded case is a selector with `xt.Node == nil`,
where `visitPrint` under `-v` logs and emits nothing. -/
def baseTypeKnown : ExprM → Bool
  | .ident _ => true
  | .selector _ xNode _ => xNode.isSome

/-- The `symInfo` record (gosym.go:199-207).  Positions are `token.Pos`
values (naturals; `token.NoPos` is 0).  `exprTypeNode` is
`info.exprType.Node`, `referKind` is `info.referObj.Kind`.  The Go field
`local` is a Lean keyword and is named `isLocal` here. -/
structure SymInfo where
  pos : Nat
  expr : ExprM
  exprTypeNode : Option TypeNode
  referPos : Nat
  referKind : ObjKind
  isLocal : Bool
  isUniverse : Bool
deriving DecidableEq, Repr

/-- The three global flags consumed by `visitPrint` and `visitExpr`. -/
structure PrintCfg where
  all : Bool
  printType : Bool
  verbose : Bool
deriving DecidableEq, Repr

/-- The external facilities `visitPrint` calls: `types.FileSet.Position`
(from a `token.Pos` to a `token.Position`) and `positionToImportPath`
(gosym.go:236-245, via `build.Import`; its panics on an empty file name
or a failed reverse-mapping are invariant violations outside these
claims, so the function is modelled as total). -/
structure PrintEnv where
  position : Nat → Position
  posToImportPath : Position → String

/-- `visitPrint` (gosym.go:308-354).  `none` means the occurrence is
dropped (no line is printed); `some l` means line `l` is printed, via
`fmt.Println(line)`, i.e. as `symLineString l`.  The structure follows
the source: the kind-mask guard, the universe guard, the package fields,
the expression text (for a selector whose base is not a package, the
depointered pretty base type, a dot, and the field name; the nil-base
diagnostic branch under `-v` prints nothing), the definition marker, and
the optional type text. -/
def visitPrint (cfg : PrintCfg) (env : PrintEnv) (info : SymInfo)
    (kindMask : Nat) : Option symLine :=
  if (1 <<< info.referKind.toNat) &&& kindMask = 0 then none
  else if info.isUniverse && !cfg.all then none
  else
    let eposition := env.position info.pos
    let exprPkg := env.posToImportPath eposition
    let referPkg :=
      if info.isUniverse then "universe"
      else env.posToImportPath (env.position info.referPos)
    let name? : Option String :=
      match info.expr with
      | .ident n => some n
      | .selector xKind xNode sel =>
        if xNode = none && cfg.verbose then none
        else some (if xKind ≠ ObjKind.pkg then
                     prettyTO (depointerO xNode) ++ "." ++ sel
                   else sel)
    match name? with
    | none => none
    | some name =>
      some { pos := eposition
             exprPkg := exprPkg
             referPkg := referPkg
             isLocal := info.isLocal
             kind := info.referKind
             definition := info.referPos == info.pos
             expr := name
             exprType := if cfg.printType then prettyTO info.exprTypeNode else "" }

/-- The outcome of the boundary call `types.ExprType(e, …)` for an
identifier or selector occurrence, carried on the node: `none` models
`obj == nil` (the occurrence resolves to nothing), and otherwise the
fields record the declared object's kind, whether looking the object's
name up in `parser.Universe` yields the same object, the object's
declaration position `types.DeclPos(obj)`, and `t.Node` of the resolved
type. -/
structure Resolved where
  kind : ObjKind
  isUniverse : Bool
  declPos : Nat
  exprTypeNode : Option TypeNode
deriving DecidableEq, Repr

/-- The syntax-tree nodes distinguished by the `visit` closure of
`visitExprs` (gosym.go:144-197).  Children lists carry whatever child
nodes `ast.Walk` would descend into; `genDecl` stands for any node kind
that takes the default branch (`return true`), such as `*ast.GenDecl`.
`importSpec` carries the alias name (`none` when unnamed) and its
children; `funcDecl` carries whether `Recv` is non-nil, the name, the
number of parameters (unused by the source) and its children; `ident`
and `selector` carry their `token.Pos` and their `Resolved` boundary
data, the selector also its base expression. -/
inductive Node where
  | importSpec (name : Option String) (children : List Node)
  | funcDecl (hasRecv : Bool) (name : String) (params : Nat) (children : List Node)
  | ident (pos : Nat) (name : String) (res : Option Resolved)
  | keyValue (key : Node) (value : Node)
  | selector (x : Node) (selPos : Nat) (xKind : ObjKind)
      (xNode : Option TypeNode) (selName : String) (res : Option Resolved)
  | file (decls : List Node)
  | genDecl (children : List Node)

/-- The state the `visit` closure mutates: the abort flag `ok`, the
occurrences passed to the callback so far (in order), and the `init`
objects synthesized by `ast.NewObj(ast.Fun, "init")`. -/
structure WalkState where
  ok : Bool
  emitted : List SymInfo
  synth : List (ObjKind × String)
deriving DecidableEq, Repr

/-- `context.visitExpr` (gosym.go:209-234) as one state step: an
unresolved occurrence is skipped and the function returns `true` (so `ok`
is assigned `true`); a resolved occurrence is passed to the callback
(recorded in `emitted`) and `ok` is assigned the callback's result.
`referPos` stays `token.NoPos` (0) for a universe object. -/
def visitExprStep (vf : SymInfo → Bool) (pos : Nat) (form : ExprM)
    (res : Option Resolved) (loc : Bool) (s : WalkState) : WalkState :=
  match res with
  | none => { s with ok := true }
  | some r =>
    let info : SymInfo :=
      { pos := pos
        expr := form
        exprTypeNode := r.exprTypeNode
        referPos := if r.isUniverse then 0 else r.declPos
        referKind := r.kind
        isLocal := loc
        isUniverse := r.isUniverse }
    { s with ok := vf info, emitted := s.emitted ++ [info] }

mutual
/-- One `ast.Walk` step with the `visit` closure (gosym.go:148-195):
`visit` first checks the abort flag (`if !ok { return false }`), then a
dot import clears `ok` and stops; any other import spec, a `funcDecl`
(after synthesizing the `init` object for a receiver-less function named
`init`) and a `genDecl` descend into their children; an identifier
resolves and does not descend; a key-value walks only its value; a
selector walks its base and then resolves itself (the source does not
re-check `ok` between the two); a file walks its declarations in order.
`local` is always `false` (gosym.go:147). -/
def walk (vf : SymInfo → Bool) (n : Node) (s : WalkState) : WalkState :=
  if s.ok then
    match n with
    | .importSpec name cs =>
      if name = some "." then { s with ok := false } else walkList vf cs s
    | .funcDecl hasRecv nm _params cs =>
      let s' :=
        if !hasRecv && nm == "init" then
          { s with synth := s.synth ++ [(ObjKind.func, "init")] }
        else s
      walkList vf cs s'
    | .ident pos nm res => visitExprStep vf pos (.ident nm) res false s
    | .keyValue _k v => walk vf v s
    | .selector x selPos xKind xNode selName res =>
      visitExprStep vf selPos (.selector xKind xNode selName) res false
        (walk vf x s)
    | .file ds => walkList vf ds s
    | .genDecl cs => walkList vf cs s
  else s

/-- `ast.Walk` over a list of children, left to right. -/
def walkList (vf : SymInfo → Bool) (ns : List Node) (s : WalkState) : WalkState :=
  match ns with
  | [] => s
  | n :: ns => walkList vf ns (walk vf n s)
end

/-- `context.visitExprs` (gosym.go:144-197): walk one file with a fresh
abort flag (`ok := true`), a fresh `local` flag and nothing emitted. -/
def visitExprs (vf : SymInfo → Bool) (f : Node) : WalkState :=
  walk vf f { ok := true, emitted := [], synth := [] }

/-- The per-file loop of `main` (gosym.go:64-70): each file of each
package is traversed by its own `visitExprs` call; the printed lines are
the concatenation of the per-file callback sequences. -/
def runFiles (vf : SymInfo → Bool) : List Node → List SymInfo
  | [] => []
  | f :: fs => (visitExprs vf f).emitted ++ runFiles vf fs

theorem walk_of_not_ok (vf : SymInfo → Bool) (n : Node) (s : WalkState)
    (h : s.ok = false) : walk vf n s = s := by
  unfold walk
  rw [h]
  simp

theorem walkList_of_not_ok (vf : SymInfo → Bool) (ns : List Node) (s : WalkState)
    (h : s.ok = false) : walkList vf ns s = s := by
  induction ns with
  | nil => rfl
  | cons n ns ih => rw [walkList, walk_of_not_ok vf n s h, ih]

theorem walkList_append (vf : SymInfo → Bool) (a b : List Node) (s : WalkState) :
    walkList vf (a ++ b) s = walkList vf b (walkList vf a s) := by
  induction a generalizing s with
  | nil => rfl
  | cons n a ih => simp only [List.cons_append, walkList]; exact ih _

theorem WalkState.set_ok_false_of_not_ok (s : WalkState) (h : s.ok = false) :
    { s with ok := false } = s := by
  cases s
  simp_all

theorem walk_genDecl_dot (vf : SymInfo → Bool) (ss1 cs ss2 : List Node)
    (s : WalkState) :
    walk vf (Node.genDecl (ss1 ++ Node.importSpec (some ".") cs :: ss2)) s
      = { walkList vf ss1 s with ok := false } := by
  by_cases h : s.ok = true
  · rw [walk]
    rw [h]
    simp only [if_true]
    rw [walkList_append]
    set u := walkList vf ss1 s with hu
    rw [walkList]
    have hdot : walk vf (Node.importSpec (some ".") cs) u = { u with ok := false } := by
      by_cases h2 : u.ok = true
      · rw [walk, h2]
        simp
      · rw [walk_of_not_ok vf _ u (by simpa using h2)]
        exact (WalkState.set_ok_false_of_not_ok u (by simpa using h2)).symm
    rw [hdot, walkList_of_not_ok vf ss2 _ rfl]
  · have h' : s.ok = false := by simpa using h
    rw [walk_of_not_ok vf _ s h', walkList_of_not_ok vf ss1 s h',
      WalkState.set_ok_false_of_not_ok s h']

/-- C3: once a dot import is met, the rest of the file's traversal is
aborted: the emitted occurrences of a file whose declarations are
`ds1 ++ [genDecl (ss1 ++ dot-import :: ss2)] ++ ds2` are exactly those of
the file `ds1 ++ [genDecl ss1]` (everything strictly before the
dot-import clause is kept, nothing after it is emitted), the abort flag ends
up cleared, and the following files are traversed unaffected, each with
a fresh flag. -/
theorem gosym_dot_import_aborts_file (vf : SymInfo → Bool)
    (ds1 ss1 cs ss2 ds2 rest : List Node) :
    runFiles vf (Node.file
        (ds1 ++ Node.genDecl (ss1 ++ Node.importSpec (some ".") cs :: ss2) :: ds2)
        :: rest)
      = (visitExprs vf (Node.file (ds1 ++ [Node.genDecl ss1]))).emitted
          ++ runFiles vf rest
    ∧ (visitExprs vf (Node.file
        (ds1 ++ Node.genDecl (ss1 ++ Node.importSpec (some ".") cs :: ss2) :: ds2))).ok
      = false := by
  have hS0 : (⟨true, [], []⟩ : WalkState).ok = true := rfl
  have hbig : visitExprs vf (Node.file
      (ds1 ++ Node.genDecl (ss1 ++ Node.importSpec (some ".") cs :: ss2) :: ds2))
      = { walkList vf ss1 (walkList vf ds1 ⟨true, [], []⟩) with ok := false } := by
    unfold visitExprs
    rw [walk, hS0]
    simp only [if_true]
    rw [walkList_append]
    rw [walkList]
    rw [walk_genDecl_dot]
    rw [walkList_of_not_ok vf ds2 _ rfl]
  have hsmall : (visitExprs vf (Node.file (ds1 ++ [Node.genDecl ss1]))).emitted
      = (walkList vf ss1 (walkList vf ds1 ⟨true, [], []⟩)).emitted := by
    unfold visitExprs
    rw [walk, hS0]
    simp only [if_true]
    rw [walkList_append]
    set s1 := walkList vf ds1 (⟨true, [], []⟩ : WalkState) with hs1
    rw [walkList, walkList]
    by_cases h : s1.ok = true
    · rw [walk, h]
      simp
    · have h' : s1.ok = false := by simpa using h
      rw [walk_of_not_ok vf _ s1 h', walkList_of_not_ok vf ss1 s1 h']
  refine ⟨?_, ?_⟩
  · show (visitExprs vf _).emitted ++ runFiles vf rest = _
    rw [hbig, hsmall]
  · rw [hbig]

/-- C8 counterexample: the traversal synthesizes the `init` object for a
receiver-less function named `init` that has one parameter, so the
claimed condition "parameterless function named init" does not govern
the synthesis. -/
theorem gosym_init_synthesis_counterexample :
    (visitExprs (fun _ => true)
        (Node.file [Node.funcDecl false "init" 1 []])).synth
      = [(ObjKind.func, "init")] ∧ (1 : Nat) ≠ 0 := by
  exact ⟨by decide, by decide⟩

/-- C8 amended: when a function declaration is visited with the abort
flag still set, the `init` object is synthesized exactly when the
declaration has no receiver (it is not a method) and is named `init`,
irrespective of its parameter count. -/
theorem gosym_init_synthesis (vf : SymInfo → Bool) (hasRecv : Bool)
    (nm : String) (params : Nat) (cs : List Node) (s : WalkState)
    (h : s.ok = true) :
    walk vf (Node.funcDecl hasRecv nm params cs) s
      = walkList vf cs
          (if hasRecv = false ∧ nm = "init" then
            { s with synth := s.synth ++ [(ObjKind.func, "init")] }
          else s) := by
  rw [walk, h]
  simp only [if_true]
  by_cases hn : nm = "init" <;> cases hasRecv <;> simp [hn]

/-- C8 witness: the amended statement at a receiver-less two-parameter
function named `init`. -/
theorem gosym_init_synthesis_witness :
    walk (fun _ => true) (Node.funcDecl false "init" 2 []) ⟨true, [], []⟩
      = walkList (fun _ => true) []
          (if false = false ∧ "init" = "init" then
            { (⟨true, [], []⟩ : WalkState) with
                synth := ([] : List (ObjKind × String)) ++ [(ObjKind.func, "init")] }
          else ⟨true, [], []⟩) :=
  gosym_init_synthesis (fun _ => true) false "init" 2 [] ⟨true, [], []⟩ rfl

/-- C1 (code bug): the parser cannot parse the serializer's output.  For
the symbol line below the serializer prints `a.go:1:2: x y Baz func`, and
`parseSymLine` reads the expression text `Baz` as the kind token (its
pattern has no expression field), failing with the `invalid kind` error
instead of reproducing the populated fields. -/
theorem gosym_roundtrip_fails :
    parseSymLine (symLineString
      { pos := { filename := "a.go", line := 1, column := 2 }
        exprPkg := "x", referPkg := "y", isLocal := false
        kind := .func, definition := false, expr := "Baz", exprType := "" })
      = .error (.invalidKind "Baz") := by
  decide

/-- C2 counterexample: the serializer does not implement the claimed
grammar `[local]<expr><kind>`: on a local occurrence of `Baz` it prints
`… Baz localfunc`, not `… localBazfunc`. -/
theorem gosym_grammar_counterexample :
    symLineString
      { pos := { filename := "a.go", line := 1, column := 2 }
        exprPkg := "p", referPkg := "q", isLocal := true
        kind := .func, definition := false, expr := "Baz", exprType := "" }
      ≠ specGrammarRender
      { pos := { filename := "a.go", line := 1, column := 2 }
        exprPkg := "p", referPkg := "q", isLocal := true
        kind := .func, definition := false, expr := "Baz", exprType := "" } := by
  decide

/-- C2 amended: the serializer renders each occurrence in the exact
grammar `<file>:<line>:<col>: <ownerPkg> <referPkg> <expr> [local]<kind>[+][ <type>]`:
the expression text is followed by exactly one space, the optional
`local` marker precedes the kind token, the kind token follows the
marker (or the space) with no separating space, and the optional type
text is preceded by exactly one space. -/
theorem gosym_grammar : ∀ l : symLine, symLineString l = codeGrammarRender l :=
  fun _ => rfl

/-- C9 counterexample: the parser does not accept exactly the spec
grammar's shape, and it can abort.  The first line is the spec grammar's
rendering of an occurrence with expression text `x` and kind `const`
(`f:1:1: a b xconst`), which the parser rejects reading `xconst` as the
kind; the second line matches the parser's own pattern but its line
number overflows a 64-bit int, making the `atoi` helper panic (the
process aborts) rather than return a structured error. -/
theorem gosym_parse_exact_counterexample :
    parseSymLine (specGrammarRender
      { pos := { filename := "f", line := 1, column := 1 }
        exprPkg := "a", referPkg := "b", isLocal := false
        kind := .con, definition := false, expr := "x", exprType := "" })
      = .error (.invalidKind "xconst")
    ∧ parseSymLine "f:99999999999999999999:1: a b const"
      = .error (.panicked "bad number") := by
  exact ⟨by decide, by decide⟩

/-- C9 amended: `parseSymLine` returns the structured `invalid line`
error carrying the offending raw text exactly on the strings that do not
match its own pattern `linePat` (which, unlike the spec grammar, has no
expression field); a string that matches the pattern with in-range
numeric fields but an unrecognized kind token — including any
spec-grammar-shaped line whose nonempty expression text is fused to the
kind — yields the structured `invalid kind` error naming that token. -/
theorem gosym_parse_errors (s : String) :
    (parseSymLine s = .error (.invalidLine s) ↔ linePatMatch s.data = none)
    ∧ (∀ m, linePatMatch s.data = some m →
        (atoi m.lineDigits).isSome = true →
        (atoi m.colDigits).isSome = true →
        objKinds (String.mk m.kindTok) = none →
        parseSymLine s = .error (.invalidKind (String.mk m.kindTok))) := by
  constructor
  · constructor
    · intro h
      cases hm : linePatMatch s.data with
      | none => rfl
      | some m =>
        simp only [parseSymLine, hm] at h
        cases h1 : atoi m.lineDigits with
        | none => simp only [h1] at h; exact absurd h (by simp)
        | some ln =>
          simp only [h1] at h
          cases h2 : atoi m.colDigits with
          | none => simp only [h2] at h; exact absurd h (by simp)
          | some col =>
            simp only [h2] at h
            cases h3 : objKinds (String.mk m.kindTok) with
            | none => simp only [h3] at h; exact absurd h (by simp)
            | some k => simp only [h3] at h; exact absurd h (by simp)
    · intro h
      simp only [parseSymLine, h]
  · intro m hm h1 h2 h3
    obtain ⟨ln, hln⟩ := Option.isSome_iff_exists.mp h1
    obtain ⟨col, hcol⟩ := Option.isSome_iff_exists.mp h2
    simp only [parseSymLine, hm, hln, hcol, h3]

/-- C9 witness: the amended statement at `nonsense` (no match, `invalid
line` error) and at `f:1:1: a b zzz` (match with unknown kind token,
`invalid kind` error). -/
theorem gosym_parse_errors_witness :
    parseSymLine "nonsense" = .error (.invalidLine "nonsense")
    ∧ parseSymLine "f:1:1: a b zzz" = .error (.invalidKind "zzz") := by
  constructor
  · exact (gosym_parse_errors "nonsense").1.mpr (by decide)
  · exact (gosym_parse_errors "f:1:1: a b zzz").2
      ⟨['f'], ['1'], ['1'], ['a'], ['b'], false, ['z', 'z', 'z'], false, none⟩
      (by decide) (by decide) (by decide) (by decide)

/-- C7: an emitted line's `definition` flag is set exactly when the
occurrence's position equals its referenced declaration's position; the
serialized text carries the `+` marker exactly when that flag is set
(the line is the stem, then `+` or nothing, then the type suffix); and
parsing a matching line sets the flag to whether the `+` group matched
(true with `+`, false without it). -/
theorem gosym_definition_marker (cfg : PrintCfg) (env : PrintEnv)
    (info : SymInfo) (mask : Nat) (l l2 : symLine) (s : String)
    (m : LineMatch) :
    (visitPrint cfg env info mask = some l →
      l.definition = (info.referPos == info.pos))
    ∧ symLineString l2
        = symLineStem l2 ++ (if l2.definition then "+" else "")
            ++ symLineTypeSuffix l2
    ∧ (linePatMatch s.data = some m →
        ∀ l3, parseSymLine s = .ok l3 → l3.definition = m.plusFlag) := by
  refine ⟨?_, ?_, ?_⟩
  · intro h
    unfold visitPrint at h
    split at h
    · exact absurd h (by simp)
    · split at h
      · exact absurd h (by simp)
      · simp only at h
        split at h
        · exact absurd h (by simp)
        · injection h with h'
          rw [← h']
  · simp only [symLineString, symLineStem, symLineTypeSuffix,
      String.append_assoc]
  · intro hm l3 h
    simp only [parseSymLine, hm] at h
    cases h1 : atoi m.lineDigits with
    | none => simp only [h1] at h; exact absurd h (by simp)
    | some ln =>
      simp only [h1] at h
      cases h2 : atoi m.colDigits with
      | none => simp only [h2] at h; exact absurd h (by simp)
      | some col =>
        simp only [h2] at h
        cases h3 : objKinds (String.mk m.kindTok) with
        | none => simp only [h3] at h; exact absurd h (by simp)
        | some k =>
          simp only [h3] at h
          injection h with h'
          rw [← h']

/-- C7 witness: the three parts at concrete inputs: a printed occurrence
whose position 7 equals its declaration position 7, and the parse of
`a.go:1:2: x y const+`, whose definition flag comes out true. -/
theorem gosym_definition_marker_witness :
    (symLine.definition
        ⟨⟨"f", 1, 1⟩, "p", "p", false, .var, true, "v", ""⟩
      = ((7 : Nat) == 7))
    ∧ (symLine.definition
        ⟨⟨"a.go", 1, 2⟩, "x", "y", false, .con, true, "", ""⟩
      = true) := by
  constructor
  · exact (gosym_definition_marker
      ⟨false, false, false⟩
      ⟨fun _ => ⟨"f", 1, 1⟩, fun _ => "p"⟩
      ⟨7, .ident "v", none, 7, .var, false, false⟩
      (1 <<< 4)
      ⟨⟨"f", 1, 1⟩, "p", "p", false, .var, true, "v", ""⟩
      ⟨⟨"f", 1, 1⟩, "p", "p", false, .var, true, "v", ""⟩
      "" ⟨[], [], [], [], [], false, [], false, none⟩).1 (by decide)
  · exact (gosym_definition_marker
      ⟨false, false, false⟩
      ⟨fun _ => ⟨"f", 1, 1⟩, fun _ => "p"⟩
      ⟨7, .ident "v", none, 7, .var, false, false⟩
      (1 <<< 4)
      ⟨⟨"f", 1, 1⟩, "p", "p", false, .var, true, "v", ""⟩
      ⟨⟨"f", 1, 1⟩, "p", "p", false, .var, true, "v", ""⟩
      "a.go:1:2: x y const+"
      ⟨['a', '.', 'g', 'o'], ['1'], ['2'], ['x'], ['y'], false,
        ['c', 'o', 'n', 's', 't'], true, none⟩).2.2 (by decide) _ (by decide)

/-- C5: at emission time an occurrence is dropped — `visitPrint` prints
no line — when its kind bit is absent from the mask or when it is a
universe symbol and `-a` is not set; and with `-a` set, a universe
occurrence whose kind bit is present (and which is not the unreachable
verbose selector-with-unknown-base-type diagnostic case) is emitted with
its referenced-package field rendered as the literal `universe`. -/
theorem gosym_emission_filter (cfg : PrintCfg) (env : PrintEnv)
    (info : SymInfo) (mask : Nat) :
    (((1 <<< info.referKind.toNat) &&& mask = 0 ∨
        (info.isUniverse = true ∧ cfg.all = false)) →
      visitPrint cfg env info mask = none)
    ∧ (cfg.all = true → info.isUniverse = true →
        (1 <<< info.referKind.toNat) &&& mask ≠ 0 →
        (baseTypeKnown info.expr = true ∨ cfg.verbose = false) →
        ∃ l, visitPrint cfg env info mask = some l ∧ l.referPkg = "universe") := by
  constructor
  · rintro (h | ⟨h1, h2⟩)
    · simp [visitPrint, h]
    · unfold visitPrint
      split
      · rfl
      · rw [h1, h2]
        simp
  · intro ha hu hm hb
    unfold visitPrint
    rw [if_neg hm]
    simp only [hu, ha, Bool.not_true, Bool.and_false]
    cases hex : info.expr with
    | ident n => exact ⟨_, rfl, rfl⟩
    | selector k xn sel =>
      have hcond : (decide (xn = none) && cfg.verbose) = false := by
        rcases hb with hb | hb
        · rw [hex] at hb
          simp only [baseTypeKnown, Option.isSome_iff_exists] at hb
          obtain ⟨t, ht⟩ := hb
          simp [ht]
        · simp [hb]
      simp only [hcond]
      exact ⟨_, rfl, rfl⟩

/-- C5 witness: a universe occurrence of `int` is dropped without `-a`
even though its kind bit is in the mask, and with `-a` it is emitted
with `referPkg = "universe"`. -/
theorem gosym_emission_filter_witness :
    visitPrint ⟨false, false, false⟩ ⟨fun _ => ⟨"f", 1, 1⟩, fun _ => "p"⟩
        ⟨5, .ident "int", none, 0, .typ, false, true⟩ 8 = none
    ∧ ∃ l, visitPrint ⟨true, false, false⟩ ⟨fun _ => ⟨"f", 1, 1⟩, fun _ => "p"⟩
        ⟨5, .ident "int", none, 0, .typ, false, true⟩ 8 = some l
        ∧ l.referPkg = "universe" := by
  constructor
  · exact (gosym_emission_filter ⟨false, false, false⟩
      ⟨fun _ => ⟨"f", 1, 1⟩, fun _ => "p"⟩
      ⟨5, .ident "int", none, 0, .typ, false, true⟩ 8).1 (Or.inr ⟨rfl, rfl⟩)
  · exact (gosym_emission_filter ⟨true, false, false⟩
      ⟨fun _ => ⟨"f", 1, 1⟩, fun _ => "p"⟩
      ⟨5, .ident "int", none, 0, .typ, false, true⟩ 8).2 rfl rfl
      (by decide) (Or.inl rfl)

/-- C6: for an emitted selector occurrence, the expression text is the
bare field name when the base resolves to a package, and otherwise
`<BaseTypeName>.<FieldName>` where the base type is printed after
`depointer` stripped it; `depointer` strips exactly one pointer
(`StarExpr`) level. -/
theorem gosym_selector_expr_text (cfg : PrintCfg) (env : PrintEnv)
    (mask : Nat) (xKind : ObjKind) (xNode : Option TypeNode) (sel : String)
    (info : SymInfo) (l : symLine)
    (hexpr : info.expr = .selector xKind xNode sel)
    (hok : visitPrint cfg env info mask = some l) :
    (xKind = .pkg → l.expr = sel)
    ∧ (∀ t, xNode = some t → xKind ≠ .pkg →
        l.expr = prettyT (depointer t) ++ "." ++ sel)
    ∧ (∀ u, depointer (TypeNode.star u) = u) := by
  unfold visitPrint at hok
  split at hok
  · exact absurd hok (by simp)
  · split at hok
    · exact absurd hok (by simp)
    · simp only [hexpr] at hok
      by_cases hc : (decide (xNode = none) && cfg.verbose) = true
      · rw [if_pos hc] at hok
        exact absurd hok (by simp)
      · rw [if_neg hc] at hok
        injection hok with h'
        refine ⟨?_, ?_, ?_⟩
        · intro hp
          rw [← h']
          simp [hp]
        · intro t ht hne
          rw [← h']
          simp [ht, hne, prettyTO, depointerO]
        · intro u
          rfl

/-- C6 witness: a selector occurrence whose base resolves to the
pointer type `*T` prints as `T.F`: one star is stripped before the base
type is rendered. -/
theorem gosym_selector_expr_text_witness :
    ((ObjKind.typ = ObjKind.pkg →
        symLine.expr ⟨⟨"f", 1, 1⟩, "p", "p", false, .var, false, "T.F", ""⟩ = "F")
     ∧ (∀ t, some (TypeNode.star (TypeNode.named "T")) = some t →
         ObjKind.typ ≠ ObjKind.pkg →
         symLine.expr ⟨⟨"f", 1, 1⟩, "p", "p", false, .var, false, "T.F", ""⟩
           = prettyT (depointer t) ++ "." ++ "F")
     ∧ (∀ u, depointer (TypeNode.star u) = u)) :=
  gosym_selector_expr_text ⟨false, false, false⟩
    ⟨fun _ => ⟨"f", 1, 1⟩, fun _ => "p"⟩ 16 .typ
    (some (.star (.named "T"))) "F"
    ⟨9, .selector .typ (some (.star (.named "T"))) "F", none, 3, .var, false, false⟩
    ⟨⟨"f", 1, 1⟩, "p", "p", false, .var, false, "T.F", ""⟩ rfl (by decide)

theorem splitChar_ne_nil (sep : Char) (l : List Char) : splitChar sep l ≠ [] := by
  cases l with
  | nil => simp [splitChar]
  | cons c cs =>
    unfold splitChar
    cases h : splitChar sep cs with
    | nil => simp
    | cons t ts => by_cases hc : c = sep <;> simp [hc]

theorem parseKindLoop_ok_iff (ts : List (List Char)) (mask : Nat)
    (h : ∀ t ∈ ts, (objKinds (String.mk t)).isSome = true) :
    ∃ M, parseKindLoop ts mask = .ok M ∧
      ∀ i : Nat, M.testBit i = true ↔
        (mask.testBit i = true ∨
          ∃ k : ObjKind, k.toNat = i ∧ ∃ t ∈ ts, objKinds (String.mk t) = some k) := by
  induction ts generalizing mask with
  | nil => exact ⟨mask, rfl, by simp⟩
  | cons t ts ih =>
    have ht := h t (by simp)
    obtain ⟨c, hc⟩ := Option.isSome_iff_exists.mp ht
    have h' : ∀ x ∈ ts, (objKinds (String.mk x)).isSome = true :=
      fun x hx => h x (by simp [hx])
    obtain ⟨M, hM, hbits⟩ := ih (mask ||| (1 <<< c.toNat)) h'
    refine ⟨M, ?_, ?_⟩
    · rw [parseKindLoop, hc]
      exact hM
    · intro i
      rw [hbits i]
      rw [Nat.testBit_lor, Nat.one_shiftLeft]
      constructor
      · rintro (hor | ⟨k, hk, x, hx, hkx⟩)
        · rcases Bool.or_eq_true_iff.mp hor with h1 | h1
          · exact Or.inl h1
          · refine Or.inr ⟨c, ?_, t, by simp, hc⟩
            by_contra hne
            rw [Nat.testBit_two_pow_of_ne hne] at h1
            exact Bool.false_ne_true h1
        · exact Or.inr ⟨k, hk, x, by simp [hx], hkx⟩
      · rintro (h1 | ⟨k, hk, x, hx, hkx⟩)
        · exact Or.inl (by rw [h1]; simp)
        · rcases List.mem_cons.mp hx with rfl | hx'
          · rw [hc] at hkx
            injection hkx with hkc
            subst hkc
            subst hk
            exact Or.inl (by rw [Nat.testBit_two_pow_self]; simp)
          · exact Or.inr ⟨k, hk, x, hx', hkx⟩

theorem parseKindLoop_err (ts : List (List Char)) (mask : Nat)
    (h : ∃ t ∈ ts, objKinds (String.mk t) = none) :
    ∃ t ∈ ts, objKinds (String.mk t) = none ∧
      parseKindLoop ts mask = .error (.unknownKind (String.mk t)) := by
  induction ts generalizing mask with
  | nil => simp at h
  | cons t ts ih =>
    cases hc : objKinds (String.mk t) with
    | none => exact ⟨t, by simp, hc, by rw [parseKindLoop, hc]⟩
    | some c =>
      have h' : ∃ x ∈ ts, objKinds (String.mk x) = none := by
        rcases h with ⟨x, hx, hnone⟩
        rcases List.mem_cons.mp hx with rfl | hx'
        · rw [hc] at hnone; exact absurd hnone (by simp)
        · exact ⟨x, hx', hnone⟩
      obtain ⟨x, hx, hnone, herr⟩ := ih (mask ||| (1 <<< c.toNat)) h'
      exact ⟨x, by simp [hx], hnone, by rw [parseKindLoop, hc]; exact herr⟩

theorem parseKindLoop_mono (ts : List (List Char)) (mask M : Nat)
    (h : parseKindLoop ts mask = .ok M) (i : Nat)
    (hi : mask.testBit i = true) : M.testBit i = true := by
  induction ts generalizing mask with
  | nil =>
    rw [parseKindLoop] at h
    injection h with h'
    rw [← h']
    exact hi
  | cons t ts ih =>
    rw [parseKindLoop] at h
    cases hc : objKinds (String.mk t) with
    | none => rw [hc] at h; exact absurd h (by simp)
    | some c =>
      rw [hc] at h
      exact ih _ h (by rw [Nat.testBit_lor, hi]; simp)

/-- C4: when every comma-separated token of the input names one of the
four kinds, `parseKindMask` succeeds and the resulting mask has exactly
the bits of the listed kinds set and no other bit; when some token is
unknown, it fails with the `unknown type kind` error naming an offending
token of the list. -/
theorem gosym_parseKindMask_spec (s : String) :
    ((∀ t ∈ splitChar ',' s.data, (objKinds (String.mk t)).isSome = true) →
      ∃ mask, parseKindMask s = .ok mask ∧
        ∀ i : Nat, mask.testBit i = true ↔
          ∃ k : ObjKind, k.toNat = i ∧
            ∃ t ∈ splitChar ',' s.data, objKinds (String.mk t) = some k)
    ∧ ((∃ t ∈ splitChar ',' s.data, objKinds (String.mk t) = none) →
      ∃ t ∈ splitChar ',' s.data, objKinds (String.mk t) = none ∧
        parseKindMask s = .error (.unknownKind (String.mk t))) := by
  constructor
  · intro h
    obtain ⟨M, hM, hbits⟩ := parseKindLoop_ok_iff (splitChar ',' s.data) 0 h
    refine ⟨M, hM, fun i => ?_⟩
    rw [hbits i]
    simp [Nat.zero_testBit]
  · intro h
    exact parseKindLoop_err (splitChar ',' s.data) 0 h

/-- C4 witness: `const,func` parses to a mask, and `const,xyz` fails
naming `xyz`. -/
theorem gosym_parseKindMask_spec_witness :
    (∃ mask, parseKindMask "const,func" = Except.ok mask)
    ∧ (∃ t ∈ splitChar ',' "const,xyz".data, objKinds (String.mk t) = none ∧
        parseKindMask "const,xyz" = .error (.unknownKind (String.mk t))) := by
  constructor
  · obtain ⟨mask, hm, _⟩ := (gosym_parseKindMask_spec "const,func").1 (by decide)
    exact ⟨mask, hm⟩
  · exact (gosym_parseKindMask_spec "const,xyz").2
      ⟨['x', 'y', 'z'], by decide, by decide⟩

/-- C10: a successful `parseKindMask` never returns the zero mask: the
split list always has at least one token, every token of a successful
run contributes its kind bit, and bits are never cleared. -/
theorem gosym_parseKindMask_nonzero (s : String) (mask : Nat)
    (h : parseKindMask s = .ok mask) : mask ≠ 0 := by
  unfold parseKindMask at h
  cases hsp : splitChar ',' s.data with
  | nil => exact absurd hsp (splitChar_ne_nil ',' s.data)
  | cons t ts =>
    rw [hsp] at h
    rw [parseKindLoop] at h
    cases hc : objKinds (String.mk t) with
    | none => rw [hc] at h; exact absurd h (by simp)
    | some c =>
      rw [hc] at h
      have hbit : mask.testBit c.toNat = true := by
        refine parseKindLoop_mono ts _ mask h c.toNat ?_
        rw [Nat.testBit_lor, Nat.one_shiftLeft, Nat.testBit_two_pow_self]
        simp
      intro h0
      rw [h0, Nat.zero_testBit] at hbit
      exact Bool.false_ne_true hbit

/-- C10 witness: `const` parses to the nonzero mask `4`. -/
theorem gosym_parseKindMask_nonzero_witness :
    parseKindMask "const" = .ok 4 ∧ (4 : Nat) ≠ 0 :=
  ⟨by decide, gosym_parseKindMask_nonzero "const" 4 (by decide)⟩
